import Mathlib

/-!
Verification of the FAANG financial-dashboard ingestion pipeline
(`src/app.py`): validation, normalization, append-merge, persistence
with backup, reset-to-original, and the year-over-year growth chart.

The pandas data model is shallowly embedded: a `DataFrame` is a list of
column names together with rows of typed cells.  A `Cell` records the
dtype-level content of one entry: `date` is a parsed datetime64 value,
`dateStr` an unparsed date string (what `read_csv` yields for the `Date`
column before `pd.to_datetime` runs), `num` a numeric value (numbers are
modelled exactly, as rationals), `str` a non-date non-numeric string,
and `na` a missing value.  CSV files on disk are modelled by the frame
they encode; `pdSerialize` captures `to_csv` (dates serialize back to
date strings).
-/

namespace FinDash

inductive Cell where
  | na : Cell
  | date (y m d : Nat) : Cell
  | dateStr (y m d : Nat) : Cell
  | num (q : ℚ) : Cell
  | str (s : String) : Cell
deriving DecidableEq, Repr

structure DataFrame where
  columns : List String
  rows : List (List Cell)
deriving DecidableEq, Repr

/-- Positional lookup of the cell under column `c` (first match wins),
mirroring label-based indexing of a dataframe row. -/
def lookupCell : List String → List Cell → String → Cell
  | c0 :: cs, x :: xs, c => if c0 = c then x else lookupCell cs xs c
  | _, _, _ => .na

/-- The values of column `c`, as in `df[c]`. -/
def getColCells (df : DataFrame) (c : String) : List Cell :=
  df.rows.map (fun r => lookupCell df.columns r c)

/-- Remove from a row the cells lying under the named columns. -/
def dropCells : List String → List String → List Cell → List Cell
  | c :: cs, names, x :: xs =>
    if c ∈ names then dropCells cs names xs else x :: dropCells cs names xs
  | _, _, xs => xs

/-- `df.drop(names, axis=1, errors="ignore")`. -/
def dropCols (df : DataFrame) (names : List String) : DataFrame :=
  { columns := df.columns.filter (fun c => c ∉ names),
    rows := df.rows.map (dropCells df.columns names) }

/-- Re-express a row given with columns `oldCols` over the columns
`newCols`, filling absent columns with `na` (the NaN fill that
`pd.concat` applies on mismatched columns). -/
def reindex (oldCols : List String) (row : List Cell) (newCols : List String) : List Cell :=
  newCols.map (fun c => lookupCell oldCols row c)

/-- `pd.concat([a, b], ignore_index=True)`: columns are unioned in
order of first appearance, rows of `a` first. -/
def pdConcat (a b : DataFrame) : DataFrame :=
  let cols := a.columns ++ b.columns.filter (fun c => c ∉ a.columns)
  { columns := cols,
    rows := a.rows.map (fun r => reindex a.columns r cols)
         ++ b.rows.map (fun r => reindex b.columns r cols) }

/-- Keep-first deduplication, accumulating the values already seen. -/
def dedupAux {α : Type} [DecidableEq α] (seen : List α) : List α → List α
  | [] => []
  | x :: xs => if x ∈ seen then dedupAux seen xs else x :: dedupAux (x :: seen) xs

/-- Keep-first deduplication of a list, as `drop_duplicates` /
`Series.unique` perform (first occurrence survives, order preserved). -/
def pdDedupList {α : Type} [DecidableEq α] (l : List α) : List α :=
  dedupAux [] l

/-- Number of entries that have an equal earlier occurrence. -/
def dupCountAux {α : Type} [DecidableEq α] (seen : List α) : List α → Nat
  | [] => 0
  | x :: xs => if x ∈ seen then 1 + dupCountAux seen xs else dupCountAux (x :: seen) xs

def dupCount {α : Type} [DecidableEq α] (l : List α) : Nat :=
  dupCountAux [] l

/-- `df.drop_duplicates()`: full-row exact duplicates removed, first
occurrence kept. -/
def pdDropDuplicates (df : DataFrame) : DataFrame :=
  { columns := df.columns, rows := pdDedupList df.rows }

/-- Replace in a row the cell under column `n` by `v`. -/
def setCell : List String → List Cell → String → Cell → List Cell
  | c :: cs, x :: xs, n, v => if c = n then v :: xs else x :: setCell cs xs n v
  | _, xs, _, _ => xs

/-- Column assignment `df[n] = vals`: overwrite the column if present,
otherwise append it on the right. -/
def setCol (df : DataFrame) (n : String) (vals : List Cell) : DataFrame :=
  if n ∈ df.columns then
    { columns := df.columns,
      rows := (df.rows.zip vals).map (fun p => setCell df.columns p.1 n p.2) }
  else
    { columns := df.columns ++ [n],
      rows := (df.rows.zip vals).map (fun p => p.1 ++ [p.2]) }

/-- How one cell serializes through `to_csv` and is read back by
`read_csv`: parsed datetimes become date strings again; numbers,
plain strings and missing values survive unchanged. -/
def serializeCell : Cell → Cell
  | .date y m d => .dateStr y m d
  | c => c

/-- `to_csv` followed by `read_csv`, at the level of whole frames. -/
def pdSerialize (df : DataFrame) : DataFrame :=
  { columns := df.columns, rows := df.rows.map (List.map serializeCell) }

/-- The frame encoded by a file whose write stopped after `k` data
rows (header already written). -/
def takeRows (df : DataFrame) (k : Nat) : DataFrame :=
  { columns := df.columns, rows := df.rows.take k }

/-- Well-formedness of a frame: each row has one cell per column. -/
def Wf (df : DataFrame) : Prop :=
  ∀ r ∈ df.rows, r.length = df.columns.length

/-! ## Schema and validation (`validate_data_format`, app.py lines 70-97) -/

def required_columns : List String :=
  ["Date", "Company", "Revenue", "NetIncome", "OperatingExpenses",
   "MarketCap", "StockPrice", "PERatio"]

def numeric_columns : List String :=
  ["Revenue", "NetIncome", "OperatingExpenses", "MarketCap", "StockPrice", "PERatio"]

/-- The validation defects `validate_data_format` can report;
`missingColumns` carries the names joined into its message. -/
inductive Defect where
  | missingColumns (cols : List String) : Defect
  | badDateFormat : Defect
  | nonNumeric (col : String) : Defect
  | unsupportedFormat : Defect
deriving DecidableEq, Repr

/-- `pd.to_datetime` on one cell: parsed dates and date strings parse,
missing values pass through as NaT, anything else raises. -/
def parseDateCell : Cell → Option Cell
  | .date y m d => some (.date y m d)
  | .dateStr y m d => some (.date y m d)
  | .na => some .na
  | _ => none

/-- `pd.to_numeric(-, errors="raise")` on one cell: numbers and missing
values pass, anything else raises. -/
def parseNumCell : Cell → Option Cell
  | .num q => some (.num q)
  | .na => some .na
  | _ => none

def dateColOk (df : DataFrame) : Bool :=
  (getColCells df "Date").all (fun c => (parseDateCell c).isSome)

def numColOk (df : DataFrame) (col : String) : Bool :=
  (getColCells df col).all (fun c => (parseNumCell c).isSome)

/-- The names required but absent, in schema order (the source computes
a Python set difference, whose iteration order is unspecified; the
defect's content — which names are missing — is the same). -/
def missingColumnsOf (df : DataFrame) : List String :=
  required_columns.filter (fun c => c ∉ df.columns)

/-- `validate_data_format(df)` (app.py lines 70-97): if any required
column is missing, exactly one defect naming all of them and no further
checks; otherwise the date-parseability check followed by one defect
per non-numeric required numeric column, in column order. -/
def validate_data_format (df : DataFrame) : List Defect :=
  if missingColumnsOf df ≠ [] then
    [Defect.missingColumns (missingColumnsOf df)]
  else
    (if dateColOk df then [] else [Defect.badDateFormat])
    ++ (numeric_columns.filter
          (fun col => col ∈ df.columns ∧ ¬ numColOk df col)).map Defect.nonNumeric

/-! ## Normalization (`load_data` lines 61-67, `process_uploaded_file`
lines 100-122).  Both paths run the same three statements: parse the
`Date` column, then derive `Year` and `Quarter` from it. -/

/-- Total version of `pd.to_datetime` used after validation has
guaranteed every cell parses. -/
def toDatetimeCell (c : Cell) : Cell :=
  (parseDateCell c).getD c

/-- `Series.dt.year`. -/
def dt_year : Cell → Cell
  | .date y _ _ => .num y
  | _ => .na

/-- The month-to-quarter map of `Series.dt.quarter`. -/
def quarterOfMonth (m : Nat) : Nat :=
  (m + 2) / 3

/-- `Series.dt.quarter`. -/
def dt_quarter : Cell → Cell
  | .date _ m _ => .num (quarterOfMonth m)
  | _ => .na

/-- `df["Date"] = pd.to_datetime(df["Date"])`. -/
def parseDateCol (df : DataFrame) : DataFrame :=
  setCol df "Date" ((getColCells df "Date").map toDatetimeCell)

/-- `df["Year"] = df["Date"].dt.year`. -/
def addYear (df : DataFrame) : DataFrame :=
  setCol df "Year" ((getColCells df "Date").map dt_year)

/-- `df["Quarter"] = df["Date"].dt.quarter`. -/
def addQuarter (df : DataFrame) : DataFrame :=
  setCol df "Quarter" ((getColCells df "Date").map dt_quarter)

/-- The shared normalization statements, in source order:
parse `Date`, derive `Year`, derive `Quarter`. -/
def normalizeFrame (df : DataFrame) : DataFrame :=
  addQuarter (addYear (parseDateCol df))

/-- `name.endswith(t)`, computed on the character list so that kernel
evaluation can reduce it. -/
def strEndsWith (s t : String) : Bool :=
  t.toList.isSuffixOf s.toList

/-- `process_uploaded_file` (app.py lines 100-122).  The upload is
modelled as its filename plus the table its bytes parse to; `read_csv`
and `read_excel` both yield that table. -/
def process_uploaded_file (name : String) (content : DataFrame) :
    Option DataFrame × List Defect :=
  if strEndsWith name ".csv" || strEndsWith name ".xlsx" || strEndsWith name ".xls" then
    match validate_data_format content with
    | [] => (some (normalizeFrame content), [])
    | errs => (none, errs)
  else
    (none, [Defect.unsupportedFormat])

/-! ## Persistence (`save_data_to_file` lines 125-140, `load_data`
lines 61-67, reset lines 308-342).  The filesystem is an association
list from path to the frame the file's CSV text encodes.  I/O failures
are injected through a `Fault` describing which operation (if any)
raises and, for the primary write, after how many rows. -/

abbrev FS : Type := List (String × DataFrame)

def getFile : FS → String → Option DataFrame
  | [], _ => none
  | (m, d) :: fs, n => if m = n then some d else getFile fs n

def setFile : FS → String → DataFrame → FS
  | [], n, d => [(n, d)]
  | (m, e) :: fs, n, d => if m = n then (n, d) :: fs else (m, e) :: setFile fs n d

def primaryPath : String := "data/financial_data.csv"

def originalPath : String := "data/financial_data_original.csv"

def backupName (ts : String) : String :=
  "data/financial_data_backup_" ++ ts ++ ".csv"

def yqCols : List String := ["Year", "Quarter"]

/-- Injected I/O failures.  Both `to_csv` calls of the save path — the
backup write (app.py line 132) and the in-place primary write (line
137) — can fail mid-write; `k` is the number of data rows emitted
before the exception.  A `read_csv` failure writes nothing. -/
inductive Fault where
  | ok : Fault
  | backupReadFail : Fault
  | backupWriteFail (k : Nat) : Fault
  | primaryWriteFail (k : Nat) : Fault
deriving DecidableEq, Repr

def faultCause : Fault → String
  | .ok => ""
  | .backupReadFail => "backup read failed"
  | .backupWriteFail _ => "backup write failed"
  | .primaryWriteFail _ => "write failed"

def saveErrMsg (f : Fault) : String :=
  "Error saving data: " ++ faultCause f

/-- The tail of `save_data_to_file`: drop `Year`/`Quarter`, then
`to_csv("data/financial_data.csv")`, written in place — a failure
mid-write leaves the rows emitted so far in the primary file. -/
def writeCleaned (fs : FS) (df : DataFrame) (fault : Fault) : FS × Bool × String :=
  let clean := pdSerialize (dropCols df yqCols)
  match fault with
  | .primaryWriteFail k =>
      (setFile fs primaryPath (takeRows clean k), false, saveErrMsg fault)
  | _ => (setFile fs primaryPath clean, true, "Data saved successfully!")

/-- `save_data_to_file(df, backup_original)` (app.py lines 125-140):
if a primary file exists and backup is requested, its content is
re-read and written to a timestamped backup file, then the cleaned
frame is written over the primary.  A failing backup read writes
nothing; a backup write failing after `k` rows leaves a partial
backup file and never reaches the primary write.  Every exception is
caught and returned as a failure result. -/
def save_data_to_file (fs : FS) (df : DataFrame) (ts : String)
    (backup : Bool) (fault : Fault) : FS × Bool × String :=
  if backup && (getFile fs primaryPath).isSome then
    match fault with
    | .backupReadFail => (fs, false, saveErrMsg fault)
    | .backupWriteFail k =>
      match getFile fs primaryPath with
      | some old =>
        (setFile fs (backupName ts) (takeRows (pdSerialize old) k), false,
         saveErrMsg fault)
      | none => (fs, false, saveErrMsg fault)
    | _ =>
      match getFile fs primaryPath with
      | some old => writeCleaned (setFile fs (backupName ts) (pdSerialize old)) df fault
      | none => writeCleaned fs df fault
  else
    writeCleaned fs df fault

/-- `load_data()` (app.py lines 61-67): read the primary CSV, parse
`Date`, derive `Year` and `Quarter`.  `none` models the
file-not-found exception. -/
def load_data (fs : FS) : Option DataFrame :=
  (getFile fs primaryPath).map normalizeFrame

/-! ## The shipped original sample (app.py lines 312-331): the
19 Meta quarters embedded as a string literal, here as the frame
that CSV text encodes. -/

/-- A rational given in lowest terms as an explicit structure literal,
so that kernel evaluation (`decide`) can compute with it: decimal CSV
values such as `165.91` denote the exact rational `qd 16591 100`
(see `qd_eq_div`). -/
def qd (n : Int) (d : Nat) (h1 : d ≠ 0) (h2 : n.natAbs.Coprime d) : ℚ :=
  ⟨n, d, h1, h2⟩

def origRow (y m d : Nat) (rev ni oe mc sp pe : ℚ) : List Cell :=
  [.dateStr y m d, .str "Meta", .num rev, .num ni, .num oe, .num mc, .num sp, .num pe]

def original_data : DataFrame :=
  { columns := required_columns,
    rows :=
      [origRow 2020 3 31 17737 4902 12835 585000 (qd 16591 100 (by decide) (by decide)) (qd 53 2 (by decide) (by decide)),
       origRow 2020 6 30 18687 5178 13509 603000 (qd 8659 50 (by decide) (by decide)) (qd 136 5 (by decide) (by decide)),
       origRow 2020 9 30 21470 7846 13624 765000 (qd 26311 100 (by decide) (by decide)) (qd 164 5 (by decide) (by decide)),
       origRow 2020 12 31 28072 11219 16853 780000 (qd 6829 25 (by decide) (by decide)) (qd 289 10 (by decide) (by decide)),
       origRow 2021 3 31 26171 9497 16674 850000 (qd 7546 25 (by decide) (by decide)) (qd 151 5 (by decide) (by decide)),
       origRow 2021 6 30 29077 10394 18683 950000 (qd 6727 20 (by decide) (by decide)) (qd 63 2 (by decide) (by decide)),
       origRow 2021 9 30 29010 9194 19784 920000 (qd 32357 100 (by decide) (by decide)) (qd 149 5 (by decide) (by decide)),
       origRow 2021 12 31 33671 10285 23511 910000 (qd 6727 20 (by decide) (by decide)) (qd 137 5 (by decide) (by decide)),
       origRow 2022 3 31 27908 7465 20460 565000 (qd 4169 20 (by decide) (by decide)) (qd 189 10 (by decide) (by decide)),
       origRow 2022 6 30 28822 6687 22075 445000 (qd 16489 100 (by decide) (by decide)) (qd 71 5 (by decide) (by decide)),
       origRow 2022 9 30 27714 4395 22054 320000 (qd 6017 50 (by decide) (by decide)) (qd 113 10 (by decide) (by decide)),
       origRow 2022 12 31 32165 4652 25766 330000 (qd 6237 50 (by decide) (by decide)) (qd 64 5 (by decide) (by decide)),
       origRow 2023 3 31 28645 5709 22893 520000 (qd 21097 100 (by decide) (by decide)) (qd 221 10 (by decide) (by decide)),
       origRow 2023 6 30 32000 7788 24912 750000 (qd 14567 50 (by decide) (by decide)) (qd 283 10 (by decide) (by decide)),
       origRow 2023 9 30 34146 11583 23734 850000 (qd 30549 100 (by decide) (by decide)) (qd 129 5 (by decide) (by decide)),
       origRow 2023 12 31 40111 14017 26139 1020000 (qd 8849 25 (by decide) (by decide)) (qd 151 5 (by decide) (by decide)),
       origRow 2024 3 31 36455 12369 24086 1150000 (qd 43787 100 (by decide) (by decide)) (qd 169 5 (by decide) (by decide)),
       origRow 2024 6 30 39071 13465 25606 1200000 (qd 45623 100 (by decide) (by decide)) (qd 351 10 (by decide) (by decide)),
       origRow 2024 9 30 40589 15688 24901 1280000 (qd 24789 50 (by decide) (by decide)) (qd 187 5 (by decide) (by decide))] }

/-- First half of the reset handler (app.py lines 310-333): write the
shipped sample to `data/financial_data_original.csv` if that file is
absent. -/
def ensureOriginal (fs : FS) : FS :=
  if getFile fs originalPath = none then setFile fs originalPath original_data else fs

/-- Second half of the reset handler (app.py lines 336-342):
`shutil.copy("data/financial_data_original.csv", "data/financial_data.csv")`. -/
def copyOriginal (fs : FS) : FS :=
  match getFile fs originalPath with
  | some c => setFile fs primaryPath c
  | none => fs

/-- The reset button handler (app.py lines 308-342): materialize the
shipped sample if absent, then copy it over the primary file.  No
timestamped backup of the prior primary content is taken on this
path. -/
def reset_to_original (fs : FS) : FS :=
  copyOriginal (ensureOriginal fs)

/-- The operations that touch the persisted dataset file.  `main` calls
`save_data_to_file(final_df)` with the backup default `True`;
fault-free executions model the temporal claim. -/
inductive Op where
  | save (df : DataFrame) (ts : String) : Op
  | reset : Op

def step (fs : FS) : Op → FS
  | .save df ts => (save_data_to_file fs df ts true .ok).1
  | .reset => reset_to_original fs

def exec (fs : FS) (ops : List Op) : FS :=
  ops.foldl step fs

/-! ## Typed records.  A valid Dataset is a list of records; its
normalized frame carries the eight persisted columns in schema order
plus the derived `Year` and `Quarter` columns. -/

structure SDate where
  y : Nat
  m : Nat
  d : Nat
deriving DecidableEq, Repr

structure Record where
  date : SDate
  company : String
  revenue : ℚ
  netIncome : ℚ
  operatingExpenses : ℚ
  marketCap : ℚ
  stockPrice : ℚ
  peRatio : ℚ
deriving DecidableEq, Repr

/-- The persisted cells of a record, `Date` parsed (as after
`load_data` / `process_uploaded_file`). -/
def persCells (r : Record) : List Cell :=
  [.date r.date.y r.date.m r.date.d, .str r.company, .num r.revenue,
   .num r.netIncome, .num r.operatingExpenses, .num r.marketCap,
   .num r.stockPrice, .num r.peRatio]

/-- The persisted cells as they sit in a CSV file on disk. -/
def persCellsS (r : Record) : List Cell :=
  [.dateStr r.date.y r.date.m r.date.d, .str r.company, .num r.revenue,
   .num r.netIncome, .num r.operatingExpenses, .num r.marketCap,
   .num r.stockPrice, .num r.peRatio]

/-- A normalized row: persisted cells plus derived `Year`, `Quarter`. -/
def normRow (r : Record) : List Cell :=
  persCells r ++ [.num r.date.y, .num (quarterOfMonth r.date.m)]

/-- Frame of the persisted fields only. -/
def framedPers (rs : List Record) : DataFrame :=
  { columns := required_columns, rows := rs.map persCells }

/-- The normalized frame of a valid Dataset, as produced by
`load_data` and `process_uploaded_file`. -/
def framedNormalized (rs : List Record) : DataFrame :=
  { columns := required_columns ++ yqCols, rows := rs.map normRow }

/-- The append-mode merge (app.py lines 242-252): strip `Year` and
`Quarter` from both frames, concatenate, drop full-row duplicates,
then re-parse `Date` and recompute `Year` and `Quarter`. -/
def mergeAppend (original_df new_df : DataFrame) : DataFrame :=
  let original_clean := dropCols original_df yqCols
  let new_clean := dropCols new_df yqCols
  let f1 := pdDropDuplicates (pdConcat original_clean new_clean)
  addQuarter (addYear (parseDateCol f1))

/-! ## Year-over-year growth (app.py lines 489-504), at record level
over the normalized filtered data. -/

structure GrowthEntry where
  company : String
  year : Nat
  growth : ℚ
deriving DecidableEq, Repr

/-- Date order used by `sort_values("Date")`. -/
def dateLe (a b : Record) : Prop :=
  a.date.y < b.date.y ∨
  (a.date.y = b.date.y ∧
    (a.date.m < b.date.m ∨ (a.date.m = b.date.m ∧ a.date.d ≤ b.date.d)))

instance : DecidableRel dateLe := fun a b => by
  unfold dateLe; infer_instance

instance : IsTotal Record dateLe :=
  ⟨by intro a b; unfold dateLe; omega⟩

instance : IsTrans Record dateLe :=
  ⟨by intro a b c hab hbc; unfold dateLe at hab hbc ⊢; omega⟩

def sortByDate (rs : List Record) : List Record :=
  rs.insertionSort dateLe

/-- Sum of the `Revenue` column over the rows of year `y`. -/
def revenueSumInYear (rs : List Record) (y : Nat) : ℚ :=
  ((rs.filter (fun r => r.date.y = y)).map Record.revenue).sum

/-- The body of the inner year loop (app.py lines 495-504): sum the
current and previous year revenues and emit a point when the previous
total is strictly positive. -/
def growthPoint (cd : List Record) (c : String) (y : Nat) : Option GrowthEntry :=
  if 0 < revenueSumInYear cd (y - 1) then
    some ⟨c, y,
      (revenueSumInYear cd y - revenueSumInYear cd (y - 1))
        / revenueSumInYear cd (y - 1) * 100⟩
  else none

/-- One pass of the growth loop body for a single company (app.py
lines 490-504): restrict to the company, sort by date, walk the unique
years after the first, and emit a growth point whenever the prior-year
revenue total is strictly positive. -/
def growthForCompany (filtered : List Record) (c : String) : List GrowthEntry :=
  let cd := sortByDate (filtered.filter (fun r => r.company = c))
  ((pdDedupList (cd.map (fun r => r.date.y))).drop 1).filterMap (growthPoint cd c)

/-- The full `growth_data` list accumulated over the selected
companies, in loop order. -/
def growth_data (companies : List String) (filtered : List Record) :
    List GrowthEntry :=
  (companies.map (growthForCompany filtered)).flatten

/-! ## Further derived frames and concrete fixtures -/

/-- Persisted frame as it sits on disk (`Date` unparsed). -/
def framedPersS (rs : List Record) : DataFrame :=
  { columns := required_columns, rows := rs.map persCellsS }

/-- The frame after `addYear` on a persisted frame. -/
def framedPersY (rs : List Record) : DataFrame :=
  { columns := required_columns ++ ["Year"],
    rows := rs.map (fun r => persCells r ++ [.num r.date.y]) }

/-- Recognizer for the column-completeness defect. -/
def isMissingDefect : Defect → Bool
  | .missingColumns _ => true
  | _ => false

/-- First row of the shipped sample, as a typed record. -/
def recMeta : Record :=
  ⟨⟨2020, 3, 31⟩, "Meta", 17737, 4902, 12835, 585000,
   qd 16591 100 (by decide) (by decide), qd 53 2 (by decide) (by decide)⟩

/-- Another shipped-sample row, distinct from `recMeta`. -/
def recMeta2 : Record :=
  ⟨⟨2021, 12, 31⟩, "Meta", 33671, 10285, 23511, 910000,
   qd 6727 20 (by decide) (by decide), qd 137 5 (by decide) (by decide)⟩

/-- The template row offered for download, as a typed record. -/
def recTemplate : Record :=
  ⟨⟨2024, 12, 31⟩, "Example Corp", 50000, 10000, 30000, 500000, 150, 25⟩

/-- Growth fixture: company `A`, revenue `100` in 2020. -/
def recA20 : Record := ⟨⟨2020, 12, 31⟩, "A", 100, 1, 1, 1, 1, 1⟩

/-- Growth fixture: company `A`, revenue `120` in 2021. -/
def recA21 : Record := ⟨⟨2021, 12, 31⟩, "A", 120, 1, 1, 1, 1, 1⟩

/-- Growth fixture: company `A`, negative revenue total in 2020. -/
def recNeg20 : Record := ⟨⟨2020, 12, 31⟩, "A", -5, 1, 1, 1, 1, 1⟩

/-- Growth fixture: company `A`, revenue `10` in 2021. -/
def recPos21 : Record := ⟨⟨2021, 12, 31⟩, "A", 10, 1, 1, 1, 1, 1⟩

/-- An uploaded table carrying all required columns plus an extra one. -/
def dfExtra : DataFrame :=
  { columns := required_columns ++ ["Extra"],
    rows := [[.dateStr 2024 12 31, .str "Example Corp", .num 50000, .num 10000,
              .num 30000, .num 500000, .num 150, .num 25, .str "note"]] }

/-- An uploaded table equal to the downloadable template CSV. -/
def dfTemplate : DataFrame :=
  { columns := required_columns, rows := [persCellsS recTemplate] }

/-! ## Lemmas about keep-first deduplication -/

theorem mem_dedupAux {α : Type} [DecidableEq α] {a : α} :
    ∀ (seen l : List α), a ∈ dedupAux seen l ↔ a ∈ l ∧ a ∉ seen := by
  intro seen l
  induction l generalizing seen with
  | nil => simp [dedupAux]
  | cons x xs ih =>
    by_cases hx : x ∈ seen
    · simp only [dedupAux, if_pos hx, ih, List.mem_cons]
      constructor
      · rintro ⟨h1, h2⟩; exact ⟨Or.inr h1, h2⟩
      · rintro ⟨h1 | h1, h2⟩
        · exact absurd (h1 ▸ hx) h2
        · exact ⟨h1, h2⟩
    · simp only [dedupAux, if_neg hx, List.mem_cons, ih, List.mem_cons]
      constructor
      · rintro (rfl | ⟨h1, h2⟩)
        · exact ⟨Or.inl rfl, hx⟩
        · exact ⟨Or.inr h1, fun hs => h2 (Or.inr hs)⟩
      · rintro ⟨rfl | h1, h2⟩
        · exact Or.inl rfl
        · by_cases hax : a = x
          · exact Or.inl hax
          · exact Or.inr ⟨h1, fun hs => by
              rcases hs with hs | hs
              · exact hax hs
              · exact h2 hs⟩

theorem mem_pdDedupList {α : Type} [DecidableEq α] {a : α} (l : List α) :
    a ∈ pdDedupList l ↔ a ∈ l := by
  simp [pdDedupList, mem_dedupAux]

theorem dedupAux_sublist {α : Type} [DecidableEq α] :
    ∀ (seen l : List α), (dedupAux seen l).Sublist l := by
  intro seen l
  induction l generalizing seen with
  | nil => simp [dedupAux]
  | cons x xs ih =>
    by_cases hx : x ∈ seen
    · simp only [dedupAux, if_pos hx]
      exact (ih seen).cons x
    · simp only [dedupAux, if_neg hx]
      exact (ih (x :: seen)).cons₂ x

theorem length_dedupAux {α : Type} [DecidableEq α] :
    ∀ (seen l : List α), (dedupAux seen l).length + dupCountAux seen l = l.length := by
  intro seen l
  induction l generalizing seen with
  | nil => simp [dedupAux, dupCountAux]
  | cons x xs ih =>
    by_cases hx : x ∈ seen
    · simp only [dedupAux, dupCountAux, if_pos hx]
      have := ih seen
      simp only [List.length_cons]
      omega
    · simp only [dedupAux, dupCountAux, if_neg hx]
      have := ih (x :: seen)
      simp only [List.length_cons]
      omega

theorem length_pdDedupList {α : Type} [DecidableEq α] (l : List α) :
    (pdDedupList l).length + dupCount l = l.length :=
  length_dedupAux [] l

theorem dedupAux_append {α : Type} [DecidableEq α] (a b : List α) :
    ∀ seen : List α, ∃ l2 : List α,
      dedupAux seen (a ++ b) = dedupAux seen a ++ l2 ∧ l2.Sublist b := by
  induction a with
  | nil =>
    intro seen
    exact ⟨dedupAux seen b, by simp [dedupAux], dedupAux_sublist seen b⟩
  | cons x xs ih =>
    intro seen
    by_cases hx : x ∈ seen
    · obtain ⟨l2, h1, h2⟩ := ih seen
      exact ⟨l2,
        by simp only [List.cons_append, dedupAux, if_pos hx, List.append_eq, h1], h2⟩
    · obtain ⟨l2, h1, h2⟩ := ih (x :: seen)
      exact ⟨l2,
        by simp only [List.cons_append, dedupAux, if_neg hx, List.append_eq, h1], h2⟩

theorem pdDedupList_append {α : Type} [DecidableEq α] (a b : List α) :
    ∃ l2 : List α, pdDedupList (a ++ b) = pdDedupList a ++ l2 ∧ l2.Sublist b :=
  dedupAux_append a b []

theorem map_dedupAux {α β : Type} [DecidableEq α] [DecidableEq β]
    {f : α → β} (hf : ∀ a b, f a = f b → a = b) :
    ∀ (seen l : List α),
      dedupAux (seen.map f) (l.map f) = (dedupAux seen l).map f := by
  intro seen l
  induction l generalizing seen with
  | nil => simp [dedupAux]
  | cons x xs ih =>
    have hmem : f x ∈ seen.map f ↔ x ∈ seen := by
      constructor
      · intro h
        obtain ⟨a, ha, hfa⟩ := List.mem_map.mp h
        exact (hf a x hfa) ▸ ha
      · intro h; exact List.mem_map_of_mem f h
    by_cases hx : x ∈ seen
    · simp only [List.map_cons, dedupAux, if_pos (hmem.mpr hx), if_pos hx, ih]
    · simp only [List.map_cons, dedupAux, if_neg (fun h => hx (hmem.mp h)), if_neg hx]
      rw [← List.map_cons f x seen, ih]

theorem map_pdDedupList {α β : Type} [DecidableEq α] [DecidableEq β]
    {f : α → β} (hf : ∀ a b, f a = f b → a = b) (l : List α) :
    pdDedupList (l.map f) = (pdDedupList l).map f :=
  map_dedupAux hf [] l

/-! ## Lemmas about the file store -/

theorem getFile_setFile_self (fs : FS) (n : String) (d : DataFrame) :
    getFile (setFile fs n d) n = some d := by
  induction fs with
  | nil => simp [setFile, getFile]
  | cons p fs ih =>
    obtain ⟨m, e⟩ := p
    by_cases h : m = n
    · simp [setFile, getFile, h]
    · simp [setFile, getFile, h, ih]

theorem getFile_setFile_other (fs : FS) {n m : String} (d : DataFrame)
    (h : m ≠ n) : getFile (setFile fs n d) m = getFile fs m := by
  have hnm : ¬ n = m := fun hh => h hh.symm
  induction fs with
  | nil => simp [setFile, getFile, hnm]
  | cons p fs ih =>
    obtain ⟨k, e⟩ := p
    by_cases hk : k = n
    · subst hk
      simp [setFile, getFile, hnm]
    · simp [setFile, getFile, hk, ih]

theorem setFile_setFile_self (fs : FS) (n : String) (d e : DataFrame) :
    setFile (setFile fs n d) n e = setFile fs n e := by
  induction fs with
  | nil => simp [setFile]
  | cons p fs ih =>
    obtain ⟨m, c⟩ := p
    by_cases h : m = n
    · simp [setFile, h]
    · simp [setFile, h, ih]

theorem length_primaryPath : primaryPath.length = 23 := by decide

theorem backupName_ne_primaryPath (ts : String) : backupName ts ≠ primaryPath := by
  intro h
  have hl := congrArg String.length h
  rw [backupName, primaryPath] at hl
  rw [String.length_append, String.length_append] at hl
  have h1 : ("data/financial_data_backup_" : String).length = 27 := by decide
  have h2 : (".csv" : String).length = 4 := by decide
  have h3 : ("data/financial_data.csv" : String).length = 23 := by decide
  omega

theorem originalPath_ne_primaryPath : originalPath ≠ primaryPath := by decide

/-! ## Computation lemmas over frames of records -/

theorem persCells_inj : ∀ r1 r2 : Record, persCells r1 = persCells r2 → r1 = r2 := by
  intro r1 r2 h
  obtain ⟨⟨y1, m1, d1⟩, c1, a1, b1, e1, f1, g1, p1⟩ := r1
  obtain ⟨⟨y2, m2, d2⟩, c2, a2, b2, e2, f2, g2, p2⟩ := r2
  simp only [persCells, List.cons.injEq, Cell.date.injEq, Cell.str.injEq,
    Cell.num.injEq, and_true] at h
  obtain ⟨⟨hy, hm, hd⟩, hc, ha, hb, he, hf, hg, hp⟩ := h
  subst hy; subst hm; subst hd; subst hc; subst ha; subst hb
  subst he; subst hf; subst hg; subst hp
  rfl

theorem dropCols_framedNormalized (rs : List Record) :
    dropCols (framedNormalized rs) yqCols = framedPers rs := by
  unfold dropCols framedNormalized framedPers
  simp only [DataFrame.mk.injEq]
  refine ⟨by decide, ?_⟩
  rw [List.map_map]
  apply List.map_congr_left
  intro r _
  rfl

theorem pdSerialize_framedPers (rs : List Record) :
    pdSerialize (framedPers rs) = framedPersS rs := by
  unfold pdSerialize framedPers framedPersS
  simp only [DataFrame.mk.injEq, true_and]
  rw [List.map_map]
  apply List.map_congr_left
  intro r _
  rfl

theorem pdConcat_framedPers (a b : List Record) :
    pdConcat (framedPers a) (framedPers b) = framedPers (a ++ b) := by
  unfold pdConcat framedPers
  simp only [DataFrame.mk.injEq]
  constructor
  · show required_columns
        ++ List.filter (fun c => c ∉ required_columns) required_columns
        = required_columns
    decide
  · rw [List.map_append]
    congr 1
    · rw [List.map_map]
      apply List.map_congr_left
      intro r _
      show reindex required_columns (persCells r)
        (required_columns ++ List.filter (fun c => c ∉ required_columns) required_columns)
        = persCells r
      rw [show List.filter (fun c => c ∉ required_columns) required_columns
            = [] from by decide]
      rfl
    · rw [List.map_map]
      apply List.map_congr_left
      intro r _
      show reindex required_columns (persCells r)
        (required_columns ++ List.filter (fun c => c ∉ required_columns) required_columns)
        = persCells r
      rw [show List.filter (fun c => c ∉ required_columns) required_columns
            = [] from by decide]
      rfl

theorem pdDropDuplicates_framedPers (rs : List Record) :
    pdDropDuplicates (framedPers rs) = framedPers (pdDedupList rs) := by
  unfold pdDropDuplicates framedPers pdDedupList
  simp only [DataFrame.mk.injEq, true_and]
  rw [show ([] : List (List Cell)) = ([] : List Record).map persCells from rfl]
  exact map_dedupAux persCells_inj [] rs

theorem parseDateCol_framedPers (rs : List Record) :
    parseDateCol (framedPers rs) = framedPers rs := by
  have h : "Date" ∈ (framedPers rs).columns := by
    have h' : "Date" ∈ required_columns := by decide
    exact h'
  unfold parseDateCol setCol
  rw [if_pos h]
  unfold getColCells framedPers
  simp only [List.map_map, List.zip_map']
  apply congrArg (DataFrame.mk required_columns)
  apply List.map_congr_left
  intro r _
  rfl

theorem parseDateCol_framedPersS (rs : List Record) :
    parseDateCol (framedPersS rs) = framedPers rs := by
  have h : "Date" ∈ (framedPersS rs).columns := by
    have h' : "Date" ∈ required_columns := by decide
    exact h'
  unfold parseDateCol setCol
  rw [if_pos h]
  unfold getColCells framedPersS
  simp only [List.map_map, List.zip_map']
  show DataFrame.mk required_columns _ = framedPers rs
  unfold framedPers
  apply congrArg (DataFrame.mk required_columns)
  apply List.map_congr_left
  intro r _
  rfl

theorem addYear_framedPers (rs : List Record) :
    addYear (framedPers rs) = framedPersY rs := by
  have h : "Year" ∉ (framedPers rs).columns := by
    have h' : "Year" ∉ required_columns := by decide
    exact h'
  unfold addYear setCol
  rw [if_neg h]
  unfold getColCells framedPers framedPersY
  simp only [List.map_map, List.zip_map']
  apply congrArg (DataFrame.mk (required_columns ++ ["Year"]))
  apply List.map_congr_left
  intro r _
  rfl

theorem addQuarter_framedPersY (rs : List Record) :
    addQuarter (framedPersY rs) = framedNormalized rs := by
  have h : "Quarter" ∉ (framedPersY rs).columns := by
    have h' : "Quarter" ∉ required_columns ++ ["Year"] := by decide
    exact h'
  unfold addQuarter setCol
  rw [if_neg h]
  unfold getColCells framedPersY framedNormalized
  simp only [List.map_map, List.zip_map']
  show DataFrame.mk ((required_columns ++ ["Year"]) ++ ["Quarter"]) _ = _
  rw [show (required_columns ++ ["Year"]) ++ ["Quarter"]
        = required_columns ++ yqCols from by decide]
  apply congrArg (DataFrame.mk (required_columns ++ yqCols))
  apply List.map_congr_left
  intro r _
  rfl

theorem normalizeFrame_framedPers (rs : List Record) :
    normalizeFrame (framedPers rs) = framedNormalized rs := by
  unfold normalizeFrame
  rw [parseDateCol_framedPers, addYear_framedPers, addQuarter_framedPersY]

theorem normalizeFrame_framedPersS (rs : List Record) :
    normalizeFrame (framedPersS rs) = framedNormalized rs := by
  unfold normalizeFrame
  rw [parseDateCol_framedPersS, addYear_framedPers, addQuarter_framedPersY]

/-! ## Lemmas about save and reset -/

theorem writeCleaned_ok (fs : FS) (df : DataFrame) :
    writeCleaned fs df .ok
      = (setFile fs primaryPath (pdSerialize (dropCols df yqCols)), true,
         "Data saved successfully!") := rfl

theorem save_ok_primary (fs : FS) (df : DataFrame) (ts : String) (b : Bool) :
    getFile (save_data_to_file fs df ts b .ok).1 primaryPath
      = some (pdSerialize (dropCols df yqCols)) := by
  unfold save_data_to_file
  by_cases h : (b && (getFile fs primaryPath).isSome) = true
  · rw [if_pos h]
    have hsome : (getFile fs primaryPath).isSome = true := (Bool.and_eq_true _ _ |>.mp h).2
    obtain ⟨old, hold⟩ := Option.isSome_iff_exists.mp hsome
    rw [hold]
    show getFile (writeCleaned (setFile fs (backupName ts) (pdSerialize old)) df .ok).1
        primaryPath = _
    rw [writeCleaned_ok]
    exact getFile_setFile_self _ _ _
  · rw [if_neg h]
    show getFile (writeCleaned fs df .ok).1 primaryPath = _
    rw [writeCleaned_ok]
    exact getFile_setFile_self _ _ _

theorem getFile_ensureOriginal_orig (fs : FS) :
    getFile (ensureOriginal fs) originalPath
      = some ((getFile fs originalPath).getD original_data) := by
  cases hg : getFile fs originalPath with
  | none =>
    unfold ensureOriginal
    rw [if_pos hg, getFile_setFile_self]
    rfl
  | some c =>
    unfold ensureOriginal
    rw [if_neg (by rw [hg]; exact fun hh => Option.noConfusion hh), hg]
    rfl

theorem reset_eq (fs : FS) :
    reset_to_original fs
      = setFile (ensureOriginal fs) primaryPath
          ((getFile fs originalPath).getD original_data) := by
  unfold reset_to_original copyOriginal
  rw [getFile_ensureOriginal_orig]

theorem getFile_reset_orig (fs : FS) :
    getFile (reset_to_original fs) originalPath
      = some ((getFile fs originalPath).getD original_data) := by
  rw [reset_eq, getFile_setFile_other _ _ originalPath_ne_primaryPath,
    getFile_ensureOriginal_orig]

theorem reset_to_original_idem (fs : FS) :
    reset_to_original (reset_to_original fs) = reset_to_original fs := by
  have h1 : getFile (reset_to_original fs) originalPath
      = some ((getFile fs originalPath).getD original_data) := getFile_reset_orig fs
  rw [reset_eq (reset_to_original fs), h1]
  have h2 : ensureOriginal (reset_to_original fs) = reset_to_original fs := by
    unfold ensureOriginal
    rw [if_neg (by rw [h1]; exact fun hh => Option.noConfusion hh)]
  rw [h2, Option.getD_some, reset_eq fs, setFile_setFile_self]

/-- The whole of an append-mode merge of two valid Datasets. -/
theorem mergeAppend_framed (ex inc : List Record) :
    mergeAppend (framedNormalized ex) (framedNormalized inc)
      = framedNormalized (pdDedupList (ex ++ inc)) := by
  show addQuarter (addYear (parseDateCol (pdDropDuplicates (pdConcat
        (dropCols (framedNormalized ex) yqCols)
        (dropCols (framedNormalized inc) yqCols))))) = _
  rw [dropCols_framedNormalized, dropCols_framedNormalized, pdConcat_framedPers,
    pdDropDuplicates_framedPers, parseDateCol_framedPers, addYear_framedPers,
    addQuarter_framedPersY]

/-! ## Claim theorems -/

/-- C1: Append-mode merge strips the derived `Year` and `Quarter`
fields, concatenates existing then incoming, removes full-row exact
duplicates (identity on every persisted field, first occurrence kept)
and recomputes the derived fields; every row of the existing Dataset
and every row value of the incoming Dataset appears in the result, the
row count is `len existing + len incoming` minus the number of rows
with an equal earlier occurrence in the concatenation, and the row
order is the deduplicated existing rows followed by a subsequence of
the incoming rows. -/
theorem C1_append_merge (ex inc : List Record) :
    mergeAppend (framedNormalized ex) (framedNormalized inc)
        = framedNormalized (pdDedupList (ex ++ inc)) ∧
    (∀ r ∈ ex,
      normRow r ∈ (mergeAppend (framedNormalized ex) (framedNormalized inc)).rows) ∧
    (∀ r ∈ inc,
      normRow r ∈ (mergeAppend (framedNormalized ex) (framedNormalized inc)).rows) ∧
    (mergeAppend (framedNormalized ex) (framedNormalized inc)).rows.length
        = ex.length + inc.length - dupCount (ex ++ inc) ∧
    ∃ l2 : List Record,
      (mergeAppend (framedNormalized ex) (framedNormalized inc)).rows
          = (pdDedupList ex).map normRow ++ l2.map normRow ∧ l2.Sublist inc := by
  have hm := mergeAppend_framed ex inc
  refine ⟨hm, ?_, ?_, ?_, ?_⟩
  · intro r hr
    rw [hm]
    exact List.mem_map_of_mem _ ((mem_pdDedupList _).mpr (List.mem_append_left _ hr))
  · intro r hr
    rw [hm]
    exact List.mem_map_of_mem _ ((mem_pdDedupList _).mpr (List.mem_append_right _ hr))
  · rw [hm]
    show ((pdDedupList (ex ++ inc)).map normRow).length = _
    rw [List.length_map]
    have h := length_pdDedupList (ex ++ inc)
    rw [List.length_append] at h
    omega
  · obtain ⟨l2, h1, h2⟩ := pdDedupList_append ex inc
    refine ⟨l2, ?_, h2⟩
    rw [hm]
    show (pdDedupList (ex ++ inc)).map normRow = _
    rw [h1, List.map_append]

/-- C9: full-row deduplication applies across the entire
concatenation, so duplicate rows inside the existing Dataset alone
are also collapsed: for an existing Dataset holding the same row
twice (merged with an upload of that same row), the merge result has
fewer rows than the existing Dataset itself. -/
theorem C9_internal_duplicates_collapse :
    (mergeAppend (framedNormalized [recMeta, recMeta])
        (framedNormalized [recMeta])).rows.length = 1 ∧
    (framedNormalized [recMeta, recMeta]).rows.length = 2 ∧
    (mergeAppend (framedNormalized [recMeta, recMeta])
        (framedNormalized [recMeta])).rows.length
      < (framedNormalized [recMeta, recMeta]).rows.length := by decide

/-- C3: for a table missing required columns, validation reports
exactly one defect naming all of the missing columns, and the date
and numeric checks are not run. -/
theorem C3_missing_columns (df : DataFrame) (h : missingColumnsOf df ≠ []) :
    validate_data_format df = [Defect.missingColumns (missingColumnsOf df)] := by
  unfold validate_data_format
  rw [if_pos h]

theorem C3_missing_columns_witness :
    validate_data_format ⟨["Date", "Company", "Revenue"], []⟩
      = [Defect.missingColumns
          ["NetIncome", "OperatingExpenses", "MarketCap", "StockPrice", "PERatio"]] :=
  (C3_missing_columns ⟨["Date", "Company", "Revenue"], []⟩ (by decide)).trans (by decide)

/-- C4: saving a valid Dataset persists exactly its eight persisted
fields (the derived `Year` and `Quarter` are discarded before
serialization), and a subsequent load returns the same Dataset with
the derived fields recomputed. -/
theorem C4_save_load_roundtrip (rs : List Record) (fs : FS) (ts : String) :
    getFile (save_data_to_file fs (framedNormalized rs) ts true .ok).1 primaryPath
        = some (framedPersS rs) ∧
    load_data (save_data_to_file fs (framedNormalized rs) ts true .ok).1
        = some (framedNormalized rs) := by
  have h1 : getFile (save_data_to_file fs (framedNormalized rs) ts true .ok).1 primaryPath
      = some (framedPersS rs) := by
    rw [save_ok_primary, dropCols_framedNormalized, pdSerialize_framedPers]
  refine ⟨h1, ?_⟩
  unfold load_data
  rw [h1, Option.map_some', normalizeFrame_framedPersS]

/-- C7: the reset path restores the fixed shipped sample as the
persisted dataset, first materializing it as the original-backup file
when that file is absent, and is idempotent. -/
theorem C7_reset (fs : FS)
    (h : getFile fs originalPath = none ∨ getFile fs originalPath = some original_data) :
    getFile (reset_to_original fs) primaryPath = some original_data ∧
    getFile (reset_to_original fs) originalPath = some original_data ∧
    reset_to_original (reset_to_original fs) = reset_to_original fs := by
  have hg : (getFile fs originalPath).getD original_data = original_data := by
    rcases h with h | h <;> rw [h] <;> rfl
  refine ⟨?_, ?_, reset_to_original_idem fs⟩
  · rw [reset_eq, hg, getFile_setFile_self]
  · rw [getFile_reset_orig, hg]

theorem C7_reset_witness :
    getFile (reset_to_original []) primaryPath = some original_data ∧
    getFile (reset_to_original []) originalPath = some original_data ∧
    reset_to_original (reset_to_original []) = reset_to_original [] :=
  C7_reset [] (Or.inl rfl)

theorem exec_take_succ (fs0 : FS) (ops : List Op) (i : Nat) (op : Op)
    (hop : ops[i]? = some op) :
    exec fs0 (ops.take (i + 1)) = step (exec fs0 (ops.take i)) op := by
  have h1 : ops.take (i + 1) = ops.take i ++ [op] := by
    rw [List.take_succ, hop]
    rfl
  rw [h1]
  unfold exec
  rw [List.foldl_append]
  rfl

theorem save_ok_backup (fs : FS) (df : DataFrame) (ts : String) (c : DataFrame)
    (h : getFile fs primaryPath = some c) :
    getFile (save_data_to_file fs df ts true .ok).1 (backupName ts)
      = some (pdSerialize c) := by
  unfold save_data_to_file
  rw [h]
  show getFile (writeCleaned (setFile fs (backupName ts) (pdSerialize c)) df .ok).1
      (backupName ts) = _
  rw [writeCleaned_ok]
  rw [getFile_setFile_other _ _ (backupName_ne_primaryPath ts)]
  exact getFile_setFile_self _ _ _

/-- C2 amended: along any operation sequence, every overwrite of a
Present primary file performed by `save_data_to_file` (as `main` calls
it, with the backup default on) is preceded — within the same
operation — by writing the prior primary content, re-serialized, to
the timestamped backup file.  The reset path, by contrast, overwrites
the primary without taking any backup (see the counterexample). -/
theorem C2_save_backup (fs0 : FS) (ops : List Op) (i : Nat) (df : DataFrame)
    (ts : String) (c : DataFrame)
    (hop : ops[i]? = some (Op.save df ts))
    (hpre : getFile (exec fs0 (ops.take i)) primaryPath = some c) :
    getFile (exec fs0 (ops.take (i + 1))) (backupName ts) = some (pdSerialize c) := by
  rw [exec_take_succ fs0 ops i _ hop]
  exact save_ok_backup _ df ts c hpre

theorem C2_save_backup_witness :
    getFile (exec [(primaryPath, framedPersS [recTemplate])]
        [Op.save (framedNormalized [recMeta]) "20250101_000000"])
      (backupName "20250101_000000")
      = some (pdSerialize (framedPersS [recTemplate])) :=
  C2_save_backup [(primaryPath, framedPersS [recTemplate])]
    [Op.save (framedNormalized [recMeta]) "20250101_000000"] 0
    (framedNormalized [recMeta]) "20250101_000000" (framedPersS [recTemplate]) rfl rfl

/-- C2 counterexample: starting from the empty store, a save followed
by a reset demonstrates an overwrite of a Present primary file that is
not preceded by any backup: after the reset, the primary content
changed and no file in the store holds the prior primary content. -/
theorem C2_counterexample :
    (getFile (exec [] [Op.save (framedNormalized [recTemplate]) "t1"])
        primaryPath).isSome = true ∧
    getFile (exec [] [Op.save (framedNormalized [recTemplate]) "t1", Op.reset])
        primaryPath
      ≠ getFile (exec [] [Op.save (framedNormalized [recTemplate]) "t1"])
          primaryPath ∧
    (exec [] [Op.save (framedNormalized [recTemplate]) "t1", Op.reset]).all
      (fun p => p.2 ≠ framedPersS [recTemplate]) = true := by decide

/-- C5 counterexample: the primary CSV is written in place, so an I/O
failure after one row leaves a partial file that is neither the prior
content nor the complete new content — there is no
write-new-then-publish step. -/
theorem C5_counterexample :
    (save_data_to_file [(primaryPath, framedPersS [recTemplate])]
        (framedNormalized [recMeta, recMeta2]) "t" true (.primaryWriteFail 1)).2.1
      = false ∧
    getFile (save_data_to_file [(primaryPath, framedPersS [recTemplate])]
        (framedNormalized [recMeta, recMeta2]) "t" true (.primaryWriteFail 1)).1
        primaryPath
      ≠ getFile [(primaryPath, framedPersS [recTemplate])] primaryPath ∧
    getFile (save_data_to_file [(primaryPath, framedPersS [recTemplate])]
        (framedNormalized [recMeta, recMeta2]) "t" true (.primaryWriteFail 1)).1
        primaryPath
      ≠ some (pdSerialize (dropCols (framedNormalized [recMeta, recMeta2]) yqCols))
    := by decide

/-- C5 amended: every injected I/O failure is caught and returned as a
failure result carrying the underlying cause (never raised).  A
failure during the in-place primary write — whether or not a prior
file existed — leaves a prefix of the new serialized content in the
primary file; a failing backup read writes nothing; a backup write
failing mid-way leaves the primary untouched but a partial backup
file behind.  There is no write-new-then-publish step anywhere. -/
theorem C5_amended (fs : FS) (df : DataFrame) (ts : String) (fault : Fault) :
    (∀ k, fault = .primaryWriteFail k →
      (save_data_to_file fs df ts true fault).2.1 = false ∧
      (save_data_to_file fs df ts true fault).2.2 = saveErrMsg fault ∧
      getFile (save_data_to_file fs df ts true fault).1 primaryPath
        = some (takeRows (pdSerialize (dropCols df yqCols)) k)) ∧
    (fault = .backupReadFail → (getFile fs primaryPath).isSome = true →
      (save_data_to_file fs df ts true fault).2.1 = false ∧
      (save_data_to_file fs df ts true fault).2.2 = saveErrMsg fault ∧
      (save_data_to_file fs df ts true fault).1 = fs) ∧
    (∀ k c, fault = .backupWriteFail k → getFile fs primaryPath = some c →
      (save_data_to_file fs df ts true fault).2.1 = false ∧
      (save_data_to_file fs df ts true fault).2.2 = saveErrMsg fault ∧
      getFile (save_data_to_file fs df ts true fault).1 primaryPath = some c ∧
      getFile (save_data_to_file fs df ts true fault).1 (backupName ts)
        = some (takeRows (pdSerialize c) k)) := by
  refine ⟨?_, ?_, ?_⟩
  · intro k hk
    subst hk
    unfold save_data_to_file
    by_cases h : (true && (getFile fs primaryPath).isSome) = true
    · rw [if_pos h]
      obtain ⟨old, hold⟩ :=
        Option.isSome_iff_exists.mp ((Bool.and_eq_true _ _ |>.mp h).2)
      rw [hold]
      refine ⟨rfl, rfl, ?_⟩
      show getFile (setFile (setFile fs (backupName ts) (pdSerialize old)) primaryPath
          (takeRows (pdSerialize (dropCols df yqCols)) k)) primaryPath = _
      exact getFile_setFile_self _ _ _
    · rw [if_neg h]
      refine ⟨rfl, rfl, ?_⟩
      show getFile (setFile fs primaryPath
          (takeRows (pdSerialize (dropCols df yqCols)) k)) primaryPath = _
      exact getFile_setFile_self _ _ _
  · intro hk hp
    subst hk
    obtain ⟨old, hold⟩ := Option.isSome_iff_exists.mp hp
    unfold save_data_to_file
    rw [hold]
    exact ⟨rfl, rfl, rfl⟩
  · intro k c hk hc
    subst hk
    unfold save_data_to_file
    rw [hc]
    refine ⟨rfl, rfl, ?_, ?_⟩
    · show getFile (setFile fs (backupName ts) (takeRows (pdSerialize c) k))
          primaryPath = some c
      rw [getFile_setFile_other _ _ (backupName_ne_primaryPath ts).symm]
      exact hc
    · exact getFile_setFile_self _ _ _

theorem cols_setCol_mem {df : DataFrame} {n : String} {vals : List Cell} {c : String}
    (h : c ∈ df.columns) : c ∈ (setCol df n vals).columns := by
  unfold setCol
  by_cases hn : n ∈ df.columns
  · rw [if_pos hn]; exact h
  · rw [if_neg hn]; exact List.mem_append_left _ h

theorem cols_pdConcat_right {a b : DataFrame} {c : String} (h : c ∈ b.columns) :
    c ∈ (pdConcat a b).columns := by
  show c ∈ a.columns ++ b.columns.filter (fun x => x ∉ a.columns)
  by_cases hc : c ∈ a.columns
  · exact List.mem_append_left _ hc
  · refine List.mem_append_right _ ?_
    rw [List.mem_filter]
    exact ⟨h, by simpa using hc⟩

theorem cols_dropCols_mem {df : DataFrame} {names : List String} {c : String}
    (h : c ∈ df.columns) (hn : c ∉ names) : c ∈ (dropCols df names).columns := by
  show c ∈ df.columns.filter (fun x => x ∉ names)
  rw [List.mem_filter]
  exact ⟨h, by simpa using hn⟩

theorem cols_mergeAppend_incoming {e i : DataFrame} {c : String}
    (hci : c ∈ i.columns) (hcy : c ∉ yqCols) : c ∈ (mergeAppend e i).columns := by
  have h2 : c ∈ (pdDropDuplicates (pdConcat (dropCols e yqCols)
      (dropCols i yqCols))).columns :=
    cols_pdConcat_right (cols_dropCols_mem hci hcy)
  show c ∈ (addQuarter (addYear (parseDateCol (pdDropDuplicates
      (pdConcat (dropCols e yqCols) (dropCols i yqCols)))))).columns
  exact cols_setCol_mem (cols_setCol_mem (cols_setCol_mem h2))

theorem validate_no_missing (df : DataFrame)
    (hreq : ∀ x ∈ required_columns, x ∈ df.columns) :
    (validate_data_format df).any isMissingDefect = false := by
  have hm : missingColumnsOf df = [] := by
    unfold missingColumnsOf
    rw [List.filter_eq_nil_iff]
    intro a ha
    simpa using hreq a ha
  unfold validate_data_format
  rw [if_neg (show ¬ missingColumnsOf df ≠ [] from fun hne => hne hm)]
  rw [List.any_append]
  apply Bool.or_eq_false_iff.mpr
  constructor
  · cases hd : dateColOk df <;> simp [isMissingDefect]
  · rw [List.any_eq_false]
    intro d hd
    obtain ⟨col, _, hcol⟩ := List.mem_map.mp hd
    rw [← hcol]
    simp [isMissingDefect]

/-- C10: a table containing all eight required columns passes the
column-completeness check no matter what extra columns it carries,
and an extra (non-derived) column of the incoming frame survives the
append merge and is persisted by save, which drops only the derived
`Year` and `Quarter` columns before serialization. -/
theorem C10_extra_columns (df e i : DataFrame) (fs : FS) (ts : String) (c : String)
    (hreq : ∀ x ∈ required_columns, x ∈ df.columns)
    (hci : c ∈ i.columns) (hcy : c ∉ yqCols) :
    (validate_data_format df).any isMissingDefect = false ∧
    c ∈ (mergeAppend e i).columns ∧
    getFile (save_data_to_file fs (mergeAppend e i) ts true .ok).1 primaryPath
      = some (pdSerialize (dropCols (mergeAppend e i) yqCols)) ∧
    c ∈ (pdSerialize (dropCols (mergeAppend e i) yqCols)).columns := by
  refine ⟨validate_no_missing df hreq, cols_mergeAppend_incoming hci hcy,
    save_ok_primary fs (mergeAppend e i) ts true, ?_⟩
  show c ∈ (dropCols (mergeAppend e i) yqCols).columns
  exact cols_dropCols_mem (cols_mergeAppend_incoming hci hcy) hcy

theorem C10_extra_columns_witness :
    (validate_data_format dfExtra).any isMissingDefect = false ∧
    "Extra" ∈ (mergeAppend (framedNormalized [recMeta]) dfExtra).columns ∧
    getFile (save_data_to_file [] (mergeAppend (framedNormalized [recMeta]) dfExtra)
        "t" true .ok).1 primaryPath
      = some (pdSerialize (dropCols (mergeAppend (framedNormalized [recMeta]) dfExtra)
          yqCols)) ∧
    "Extra" ∈ (pdSerialize (dropCols (mergeAppend (framedNormalized [recMeta]) dfExtra)
        yqCols)).columns :=
  C10_extra_columns dfExtra (framedNormalized [recMeta]) dfExtra [] "t" "Extra"
    (by decide) (by decide) (by decide)

theorem C5_amended_witness :
    (save_data_to_file [(primaryPath, framedPersS [recTemplate])]
        (framedNormalized [recMeta, recMeta2]) "t" true (.backupWriteFail 1)).2.1
      = false ∧
    (save_data_to_file [(primaryPath, framedPersS [recTemplate])]
        (framedNormalized [recMeta, recMeta2]) "t" true (.backupWriteFail 1)).2.2
      = saveErrMsg (.backupWriteFail 1) ∧
    getFile (save_data_to_file [(primaryPath, framedPersS [recTemplate])]
        (framedNormalized [recMeta, recMeta2]) "t" true (.backupWriteFail 1)).1
        primaryPath
      = some (framedPersS [recTemplate]) ∧
    getFile (save_data_to_file [(primaryPath, framedPersS [recTemplate])]
        (framedNormalized [recMeta, recMeta2]) "t" true (.backupWriteFail 1)).1
        (backupName "t")
      = some (takeRows (pdSerialize (framedPersS [recTemplate])) 1) :=
  (C5_amended [(primaryPath, framedPersS [recTemplate])]
    (framedNormalized [recMeta, recMeta2]) "t" (.backupWriteFail 1)).2.2 1
    (framedPersS [recTemplate]) rfl rfl

/-! ## Cell-level lemmas about column assignment -/

theorem lookupCell_setCell_same : ∀ (cols : List String) (row : List Cell)
    (n : String) (v : Cell), row.length = cols.length → n ∈ cols →
    lookupCell cols (setCell cols row n v) n = v := by
  intro cols
  induction cols with
  | nil => intro row n v _ hn; simp at hn
  | cons c cs ih =>
    intro row n v hlen hn
    cases row with
    | nil => simp at hlen
    | cons x xs =>
      by_cases hc : c = n
      · subst hc
        simp [setCell, lookupCell]
      · simp only [setCell, if_neg hc, lookupCell]
        exact ih xs n v (by simpa using hlen)
          ((List.mem_cons.mp hn).resolve_left (fun h => hc h.symm))

theorem lookupCell_setCell_other : ∀ (cols : List String) (row : List Cell)
    (n m : String) (v : Cell), m ≠ n →
    lookupCell cols (setCell cols row n v) m = lookupCell cols row m := by
  intro cols
  induction cols with
  | nil => intro row n m v _; cases row <;> rfl
  | cons c cs ih =>
    intro row n m v hmn
    cases row with
    | nil => rfl
    | cons x xs =>
      by_cases hc : c = n
      · subst hc
        simp only [setCell, if_pos rfl, lookupCell]
        rw [if_neg (fun h => hmn h.symm), if_neg (fun h => hmn h.symm)]
      · simp only [setCell, if_neg hc, lookupCell]
        by_cases hcm : c = m
        · rw [if_pos hcm, if_pos hcm]
        · rw [if_neg hcm, if_neg hcm]
          exact ih xs n m v hmn

theorem lookupCell_append_same : ∀ (cols : List String) (row : List Cell)
    (n : String) (v : Cell), row.length = cols.length → n ∉ cols →
    lookupCell (cols ++ [n]) (row ++ [v]) n = v := by
  intro cols
  induction cols with
  | nil =>
    intro row n v hlen _
    cases row with
    | nil => simp [lookupCell]
    | cons x xs => simp at hlen
  | cons c cs ih =>
    intro row n v hlen hn
    cases row with
    | nil => simp at hlen
    | cons x xs =>
      have hcn : ¬ c = n := fun h => hn (by simp [h])
      simp only [List.cons_append, lookupCell, if_neg hcn]
      exact ih xs n v (by simpa using hlen) (fun h => hn (by simp [h]))

theorem lookupCell_append_other : ∀ (cols : List String) (row : List Cell)
    (n m : String) (v : Cell), row.length = cols.length → m ≠ n →
    lookupCell (cols ++ [n]) (row ++ [v]) m = lookupCell cols row m := by
  intro cols
  induction cols with
  | nil =>
    intro row n m v hlen hmn
    cases row with
    | nil =>
      simp only [List.nil_append, lookupCell]
      rw [if_neg (fun h => hmn h.symm)]
    | cons x xs => simp at hlen
  | cons c cs ih =>
    intro row n m v hlen hmn
    cases row with
    | nil => simp at hlen
    | cons x xs =>
      simp only [List.cons_append, lookupCell]
      by_cases hcm : c = m
      · rw [if_pos hcm, if_pos hcm]
      · rw [if_neg hcm, if_neg hcm]
        exact ih xs n m v (by simpa using hlen) hmn

theorem setCell_length : ∀ (cols : List String) (row : List Cell)
    (n : String) (v : Cell), (setCell cols row n v).length = row.length := by
  intro cols
  induction cols with
  | nil => intro row n v; cases row <;> rfl
  | cons c cs ih =>
    intro row n v
    cases row with
    | nil => rfl
    | cons x xs =>
      by_cases hc : c = n
      · simp [setCell, hc]
      · simp [setCell, hc, ih]

/-! ## Frame-level lemmas about column assignment -/

theorem getColCells_length (df : DataFrame) (c : String) :
    (getColCells df c).length = df.rows.length :=
  List.length_map _ _

theorem aux_set_get_same : ∀ (cols : List String) (rows : List (List Cell))
    (vals : List Cell) (n : String),
    (∀ r ∈ rows, r.length = cols.length) → vals.length = rows.length → n ∈ cols →
    ((rows.zip vals).map (fun p => setCell cols p.1 n p.2)).map
      (fun r => lookupCell cols r n) = vals := by
  intro cols rows
  induction rows with
  | nil =>
    intro vals n _ hlen _
    cases vals with
    | nil => rfl
    | cons v vs => simp at hlen
  | cons r rs ih =>
    intro vals n hwf hlen hn
    cases vals with
    | nil => simp at hlen
    | cons v vs =>
      simp only [List.zip_cons_cons, List.map_cons]
      rw [lookupCell_setCell_same cols r n v (hwf r (by simp)) hn]
      congr 1
      exact ih vs n (fun x hx => hwf x (by simp [hx])) (by simpa using hlen) hn

theorem aux_append_get_same : ∀ (cols : List String) (rows : List (List Cell))
    (vals : List Cell) (n : String),
    (∀ r ∈ rows, r.length = cols.length) → vals.length = rows.length → n ∉ cols →
    ((rows.zip vals).map (fun p => p.1 ++ [p.2])).map
      (fun r => lookupCell (cols ++ [n]) r n) = vals := by
  intro cols rows
  induction rows with
  | nil =>
    intro vals n _ hlen _
    cases vals with
    | nil => rfl
    | cons v vs => simp at hlen
  | cons r rs ih =>
    intro vals n hwf hlen hn
    cases vals with
    | nil => simp at hlen
    | cons v vs =>
      simp only [List.zip_cons_cons, List.map_cons]
      rw [lookupCell_append_same cols r n v (hwf r (by simp)) hn]
      congr 1
      exact ih vs n (fun x hx => hwf x (by simp [hx])) (by simpa using hlen) hn

theorem getColCells_setCol_same (df : DataFrame) (n : String) (vals : List Cell)
    (hwf : Wf df) (hlen : vals.length = df.rows.length) :
    getColCells (setCol df n vals) n = vals := by
  unfold setCol getColCells
  by_cases hn : n ∈ df.columns
  · rw [if_pos hn]
    exact aux_set_get_same df.columns df.rows vals n hwf hlen hn
  · rw [if_neg hn]
    exact aux_append_get_same df.columns df.rows vals n hwf hlen hn

theorem aux_set_get_other : ∀ (cols : List String) (rows : List (List Cell))
    (vals : List Cell) (n m : String),
    vals.length = rows.length → m ≠ n →
    ((rows.zip vals).map (fun p => setCell cols p.1 n p.2)).map
      (fun r => lookupCell cols r m) = rows.map (fun r => lookupCell cols r m) := by
  intro cols rows
  induction rows with
  | nil =>
    intro vals n m _ _
    cases vals <;> rfl
  | cons r rs ih =>
    intro vals n m hlen hmn
    cases vals with
    | nil => simp at hlen
    | cons v vs =>
      simp only [List.zip_cons_cons, List.map_cons]
      rw [lookupCell_setCell_other cols r n m v hmn]
      congr 1
      exact ih vs n m (by simpa using hlen) hmn

theorem aux_append_get_other : ∀ (cols : List String) (rows : List (List Cell))
    (vals : List Cell) (n m : String),
    (∀ r ∈ rows, r.length = cols.length) → vals.length = rows.length → m ≠ n →
    ((rows.zip vals).map (fun p => p.1 ++ [p.2])).map
      (fun r => lookupCell (cols ++ [n]) r m) = rows.map (fun r => lookupCell cols r m) := by
  intro cols rows
  induction rows with
  | nil =>
    intro vals n m _ _ _
    cases vals <;> rfl
  | cons r rs ih =>
    intro vals n m hwf hlen hmn
    cases vals with
    | nil => simp at hlen
    | cons v vs =>
      simp only [List.zip_cons_cons, List.map_cons]
      rw [lookupCell_append_other cols r n m v (hwf r (by simp)) hmn]
      congr 1
      exact ih vs n m (fun x hx => hwf x (by simp [hx])) (by simpa using hlen) hmn

theorem getColCells_setCol_other (df : DataFrame) (n m : String) (vals : List Cell)
    (hwf : Wf df) (hlen : vals.length = df.rows.length) (hmn : m ≠ n) :
    getColCells (setCol df n vals) m = getColCells df m := by
  unfold setCol getColCells
  by_cases hn : n ∈ df.columns
  · rw [if_pos hn]
    exact aux_set_get_other df.columns df.rows vals n m hlen hmn
  · rw [if_neg hn]
    exact aux_append_get_other df.columns df.rows vals n m hwf hlen hmn

theorem Wf_setCol (df : DataFrame) (n : String) (vals : List Cell)
    (hwf : Wf df) : Wf (setCol df n vals) := by
  unfold setCol
  by_cases hn : n ∈ df.columns
  · rw [if_pos hn]
    intro r hr
    obtain ⟨p, hp, hpr⟩ := List.mem_map.mp hr
    rw [← hpr]
    show (setCell df.columns p.1 n p.2).length = df.columns.length
    rw [setCell_length]
    exact hwf p.1 (List.of_mem_zip hp).1
  · rw [if_neg hn]
    intro r hr
    obtain ⟨p, hp, hpr⟩ := List.mem_map.mp hr
    rw [← hpr]
    show (p.1 ++ [p.2]).length = (df.columns ++ [n]).length
    rw [List.length_append, List.length_append]
    rw [hwf p.1 (List.of_mem_zip hp).1]
    rfl

theorem rows_setCol_length (df : DataFrame) (n : String) (vals : List Cell)
    (hlen : vals.length = df.rows.length) :
    (setCol df n vals).rows.length = df.rows.length := by
  unfold setCol
  by_cases hn : n ∈ df.columns
  · rw [if_pos hn]
    show ((df.rows.zip vals).map _).length = _
    rw [List.length_map, List.length_zip, hlen, Nat.min_self]
  · rw [if_neg hn]
    show ((df.rows.zip vals).map _).length = _
    rw [List.length_map, List.length_zip, hlen, Nat.min_self]

/-! ## The quarter formula and the normalization claim -/

theorem quarterOfMonth_eq_ceil (m : Nat) : quarterOfMonth m = ⌈(m : ℚ) / 3⌉₊ := by
  unfold quarterOfMonth
  have h3 : (0 : ℚ) < 3 := by norm_num
  have hdm := Nat.div_add_mod (m + 2) 3
  have hlt : (m + 2) % 3 < 3 := Nat.mod_lt _ (by omega)
  apply le_antisymm
  · rcases Nat.eq_zero_or_pos ((m + 2) / 3) with h0 | hpos
    · rw [h0]; exact Nat.zero_le _
    · have hstep : (m + 2) / 3 - 1 < ⌈(m : ℚ) / 3⌉₊ := by
        rw [Nat.lt_ceil, lt_div_iff₀ h3]
        have hnat : ((m + 2) / 3 - 1) * 3 < m := by omega
        exact_mod_cast hnat
      omega
  · rw [Nat.ceil_le, div_le_iff₀ h3]
    have hnat : m ≤ ((m + 2) / 3) * 3 := by omega
    exact_mod_cast hnat

theorem validate_nil_parts (df : DataFrame) (h : validate_data_format df = []) :
    missingColumnsOf df = [] ∧ dateColOk df = true ∧
    (∀ col ∈ numeric_columns, col ∈ df.columns → numColOk df col = true) := by
  unfold validate_data_format at h
  by_cases hm : missingColumnsOf df ≠ []
  · rw [if_pos hm] at h
    exact absurd h (by simp)
  · rw [if_neg hm] at h
    rw [not_not] at hm
    obtain ⟨h1, h2⟩ := List.append_eq_nil.mp h
    refine ⟨hm, ?_, ?_⟩
    · cases hd : dateColOk df
      · rw [hd] at h1
        simp at h1
      · rfl
    · intro col hcol hcc
      by_cases hok : numColOk df col = true
      · exact hok
      · exfalso
        have hmem : col ∈ numeric_columns.filter
            (fun col => col ∈ df.columns ∧ ¬ numColOk df col) := by
          rw [List.mem_filter]
          refine ⟨hcol, ?_⟩
          simp only [decide_eq_true_eq]
          exact ⟨hcc, by simpa using hok⟩
        rw [List.map_eq_nil_iff.mp h2] at hmem
        exact absurd hmem (List.not_mem_nil col)

theorem required_sub_columns (df : DataFrame) (h : missingColumnsOf df = []) :
    ∀ x ∈ required_columns, x ∈ df.columns := by
  intro x hx
  have := List.filter_eq_nil_iff.mp h x hx
  simpa using this

theorem process_success (name : String) (content nd : DataFrame)
    (h : process_uploaded_file name content = (some nd, [])) :
    validate_data_format content = [] ∧ nd = normalizeFrame content := by
  unfold process_uploaded_file at h
  by_cases hext :
      (strEndsWith name ".csv" || strEndsWith name ".xlsx" || strEndsWith name ".xls") = true
  · rw [if_pos hext] at h
    cases hv : validate_data_format content with
    | nil =>
      rw [hv] at h
      injection h with h1 _
      exact ⟨rfl, (Option.some.inj h1).symm⟩
    | cons d ds =>
      rw [hv] at h
      injection h with h1 _
      exact absurd h1 (by simp)
  · rw [if_neg hext] at h
    injection h with h1 _
    exact absurd h1 (by simp)

/-- C6: processing a validated upload parses the `Date` column (every
resulting cell is a calendar date or missing), derives `Year` and
`Quarter` from the parsed dates with `quarter = ⌈month/3⌉` (1-indexed),
leaves the six numeric columns numeric, and is a pure function —
processing the same input twice yields identical results. -/
theorem C6_normalize (name : String) (content nd : DataFrame)
    (hwf : Wf content)
    (h : process_uploaded_file name content = (some nd, [])) :
    process_uploaded_file name content = process_uploaded_file name content ∧
    getColCells nd "Date" = (getColCells content "Date").map toDatetimeCell ∧
    (∀ c ∈ getColCells nd "Date", (∃ y m d, c = Cell.date y m d) ∨ c = Cell.na) ∧
    getColCells nd "Year" = (getColCells nd "Date").map dt_year ∧
    getColCells nd "Quarter" = (getColCells nd "Date").map dt_quarter ∧
    (∀ y m d, dt_quarter (Cell.date y m d) = Cell.num (⌈(m : ℚ) / 3⌉₊)) ∧
    (∀ col ∈ numeric_columns, ∀ c ∈ getColCells nd col,
       (∃ q, c = Cell.num q) ∨ c = Cell.na) := by
  obtain ⟨hval, hnd⟩ := process_success name content nd h
  obtain ⟨hmiss, hdate, hnum⟩ := validate_nil_parts content hval
  subst hnd
  -- the three normalization stages
  have hlen1 : ((getColCells content "Date").map toDatetimeCell).length
      = content.rows.length := by
    rw [List.length_map, getColCells_length]
  have hwf1 : Wf (parseDateCol content) := Wf_setCol content _ _ hwf
  have hrows1 : (parseDateCol content).rows.length = content.rows.length :=
    rows_setCol_length content _ _ hlen1
  have hdate1 : getColCells (parseDateCol content) "Date"
      = (getColCells content "Date").map toDatetimeCell :=
    getColCells_setCol_same content _ _ hwf hlen1
  have hlen2 : ((getColCells (parseDateCol content) "Date").map dt_year).length
      = (parseDateCol content).rows.length := by
    rw [List.length_map, getColCells_length]
  have hwf2 : Wf (addYear (parseDateCol content)) := Wf_setCol _ _ _ hwf1
  have hrows2 : (addYear (parseDateCol content)).rows.length
      = (parseDateCol content).rows.length :=
    rows_setCol_length _ _ _ hlen2
  have hdate2 : getColCells (addYear (parseDateCol content)) "Date"
      = getColCells (parseDateCol content) "Date" :=
    getColCells_setCol_other _ _ _ _ hwf1 hlen2 (by decide)
  have hyear2 : getColCells (addYear (parseDateCol content)) "Year"
      = (getColCells (parseDateCol content) "Date").map dt_year :=
    getColCells_setCol_same _ _ _ hwf1 hlen2
  have hlen3 : ((getColCells (addYear (parseDateCol content)) "Date").map
      dt_quarter).length = (addYear (parseDateCol content)).rows.length := by
    rw [List.length_map, getColCells_length]
  have hdate3 : getColCells (normalizeFrame content) "Date"
      = getColCells (addYear (parseDateCol content)) "Date" :=
    getColCells_setCol_other _ _ _ _ hwf2 hlen3 (by decide)
  have hyear3 : getColCells (normalizeFrame content) "Year"
      = getColCells (addYear (parseDateCol content)) "Year" :=
    getColCells_setCol_other _ _ _ _ hwf2 hlen3 (by decide)
  have hquarter3 : getColCells (normalizeFrame content) "Quarter"
      = (getColCells (addYear (parseDateCol content)) "Date").map dt_quarter :=
    getColCells_setCol_same _ _ _ hwf2 hlen3
  have hDate : getColCells (normalizeFrame content) "Date"
      = (getColCells content "Date").map toDatetimeCell := by
    rw [hdate3, hdate2, hdate1]
  refine ⟨rfl, hDate, ?_, ?_, ?_, ?_, ?_⟩
  · -- every parsed Date cell is a date or missing
    intro c hc
    rw [hDate] at hc
    obtain ⟨c0, hc0, hcc⟩ := List.mem_map.mp hc
    have hp : (parseDateCell c0).isSome = true := by
      have := List.all_eq_true.mp hdate
      simpa using this c0 hc0
    cases c0 with
    | date y m d => exact Or.inl ⟨y, m, d, by rw [← hcc]; rfl⟩
    | dateStr y m d => exact Or.inl ⟨y, m, d, by rw [← hcc]; rfl⟩
    | na => exact Or.inr (by rw [← hcc]; rfl)
    | num q => exact absurd hp (by simp [parseDateCell])
    | str s => exact absurd hp (by simp [parseDateCell])
  · rw [hyear3, hyear2, hdate3, hdate2]
  · rw [hquarter3, hdate3]
  · intro y m d
    simp [dt_quarter, quarterOfMonth_eq_ceil]
  · -- numeric columns untouched and numeric
    intro col hcol c hc
    have hneq : col ≠ "Quarter" ∧ col ≠ "Year" ∧ col ≠ "Date" := by
      fin_cases hcol <;> exact ⟨by decide, by decide, by decide⟩
    have e3 : getColCells (normalizeFrame content) col
        = getColCells (addYear (parseDateCol content)) col :=
      getColCells_setCol_other _ _ _ _ hwf2 hlen3 hneq.1
    have e2 : getColCells (addYear (parseDateCol content)) col
        = getColCells (parseDateCol content) col :=
      getColCells_setCol_other _ _ _ _ hwf1 hlen2 hneq.2.1
    have e1 : getColCells (parseDateCol content) col
        = getColCells content col :=
      getColCells_setCol_other _ _ _ _ hwf hlen1 hneq.2.2
    have hcol3 : getColCells (normalizeFrame content) col
        = getColCells content col := by
      rw [e3, e2, e1]
    rw [hcol3] at hc
    have hnumok : numColOk content col = true := by
      apply hnum col hcol
      apply required_sub_columns content hmiss
      fin_cases hcol <;> decide
    have hp : (parseNumCell c).isSome = true := by
      have := List.all_eq_true.mp hnumok
      simpa using this c hc
    cases c with
    | num q => exact Or.inl ⟨q, rfl⟩
    | na => exact Or.inr rfl
    | date y m d => exact absurd hp (by simp [parseNumCell])
    | dateStr y m d => exact absurd hp (by simp [parseNumCell])
    | str s => exact absurd hp (by simp [parseNumCell])

theorem C6_normalize_witness :
    getColCells (normalizeFrame dfTemplate) "Date"
      = (getColCells dfTemplate "Date").map toDatetimeCell :=
  (C6_normalize "u.csv" dfTemplate (normalizeFrame dfTemplate)
    (by unfold Wf; decide) (by decide)).2.1

/-! ## Lemmas for the year-over-year growth computation -/

theorem sortByDate_sorted (rs : List Record) :
    List.Sorted dateLe (sortByDate rs) :=
  List.sorted_insertionSort dateLe rs

theorem sortByDate_perm (rs : List Record) : List.Perm (sortByDate rs) rs :=
  List.perm_insertionSort dateLe rs

theorem years_sorted (rs : List Record) :
    List.Sorted (· ≤ ·) ((sortByDate rs).map (fun r => r.date.y)) := by
  show List.Pairwise (· ≤ ·) ((sortByDate rs).map (fun r => r.date.y))
  refine List.Pairwise.map (fun r => r.date.y) ?_ (sortByDate_sorted rs)
  intro a b hab
  show a.date.y ≤ b.date.y
  unfold dateLe at hab
  omega

theorem mem_drop1_pdDedup (l : List Nat) (hs : List.Sorted (· ≤ ·) l)
    {x y : Nat} (hy : y ∈ l) (hx : x ∈ l) (hxy : x < y) :
    y ∈ (pdDedupList l).drop 1 := by
  cases l with
  | nil => exact absurd hy (List.not_mem_nil y)
  | cons a t =>
    have hat := List.sorted_cons.mp hs
    have hay : a < y := by
      rcases List.mem_cons.mp hx with rfl | hxt
      · exact hxy
      · exact lt_of_le_of_lt (hat.1 x hxt) hxy
    have hyt : y ∈ t := by
      rcases List.mem_cons.mp hy with rfl | h
      · omega
      · exact h
    show y ∈ (dedupAux [] (a :: t)).drop 1
    have : dedupAux ([] : List Nat) (a :: t) = a :: dedupAux [a] t := by
      simp [dedupAux]
    rw [this]
    show y ∈ dedupAux [a] t
    rw [mem_dedupAux]
    exact ⟨hyt, by simp; omega⟩

theorem revSum_perm {l₁ l₂ : List Record} (h : List.Perm l₁ l₂) (z : Nat) :
    revenueSumInYear l₁ z = revenueSumInYear l₂ z := by
  unfold revenueSumInYear
  exact ((h.filter _).map _).sum_eq

/-- C8 amended: for a company selected in `companies`, whenever both
year `y - 1` and year `y` occur in its filtered rows and the
prior-year revenue total is strictly positive, the growth point
`(current - previous) / previous * 100` for year `y` is produced; when
the prior-year total is zero or negative (the code guards with
`previous_year > 0`), no growth point for year `y` is produced, by
omission rather than by raising. -/
theorem C8_growth (companies : List String) (filtered : List Record)
    (c : String) (y : Nat)
    (hc : c ∈ companies) (h0 : 0 < y)
    (hy : ∃ r ∈ filtered, r.company = c ∧ r.date.y = y)
    (hy1 : ∃ r ∈ filtered, r.company = c ∧ r.date.y = y - 1) :
    (0 < revenueSumInYear (filtered.filter (fun r => r.company = c)) (y - 1) →
      (⟨c, y,
        (revenueSumInYear (filtered.filter (fun r => r.company = c)) y
          - revenueSumInYear (filtered.filter (fun r => r.company = c)) (y - 1))
        / revenueSumInYear (filtered.filter (fun r => r.company = c)) (y - 1) * 100⟩
        : GrowthEntry) ∈ growth_data companies filtered) ∧
    (revenueSumInYear (filtered.filter (fun r => r.company = c)) (y - 1) ≤ 0 →
      ∀ e ∈ growthForCompany filtered c, e.year ≠ y) := by
  have hperm : List.Perm (sortByDate (filtered.filter (fun r => r.company = c)))
      (filtered.filter (fun r => r.company = c)) :=
    sortByDate_perm _
  have hsum : ∀ z, revenueSumInYear (sortByDate (filtered.filter
      (fun r => r.company = c))) z
      = revenueSumInYear (filtered.filter (fun r => r.company = c)) z :=
    fun z => revSum_perm hperm z
  obtain ⟨ry, hrymem, hryc, hryy⟩ := hy
  obtain ⟨r1, h1mem, h1c, h1y⟩ := hy1
  have hry0 : ry ∈ filtered.filter (fun r => r.company = c) :=
    List.mem_filter.mpr ⟨hrymem, by simp [hryc]⟩
  have hr10 : r1 ∈ filtered.filter (fun r => r.company = c) :=
    List.mem_filter.mpr ⟨h1mem, by simp [h1c]⟩
  have hys : y ∈ (sortByDate (filtered.filter (fun r => r.company = c))).map
      (fun r => r.date.y) :=
    List.mem_map.mpr ⟨ry, hperm.mem_iff.mpr hry0, hryy⟩
  have hy1s : y - 1 ∈ (sortByDate (filtered.filter (fun r => r.company = c))).map
      (fun r => r.date.y) :=
    List.mem_map.mpr ⟨r1, hperm.mem_iff.mpr hr10, h1y⟩
  have hyin : y ∈ (pdDedupList ((sortByDate (filtered.filter
      (fun r => r.company = c))).map (fun r => r.date.y))).drop 1 :=
    mem_drop1_pdDedup _ (years_sorted _) hys hy1s (by omega)
  constructor
  · intro hpos
    have hpos' : 0 < revenueSumInYear (sortByDate (filtered.filter
        (fun r => r.company = c))) (y - 1) := by
      rw [hsum]; exact hpos
    have hmemGC : (⟨c, y,
        (revenueSumInYear (filtered.filter (fun r => r.company = c)) y
          - revenueSumInYear (filtered.filter (fun r => r.company = c)) (y - 1))
        / revenueSumInYear (filtered.filter (fun r => r.company = c)) (y - 1) * 100⟩
        : GrowthEntry) ∈ growthForCompany filtered c := by
      show _ ∈ ((pdDedupList ((sortByDate (filtered.filter
          (fun r => r.company = c))).map (fun r => r.date.y))).drop 1).filterMap
        (growthPoint (sortByDate (filtered.filter (fun r => r.company = c))) c)
      apply List.mem_filterMap.mpr
      refine ⟨y, hyin, ?_⟩
      unfold growthPoint
      rw [if_pos hpos']
      simp [hsum]
    exact List.mem_flatten.mpr
      ⟨growthForCompany filtered c, List.mem_map_of_mem _ hc, hmemGC⟩
  · intro hzero e he hey
    have he' : e ∈ ((pdDedupList ((sortByDate (filtered.filter
        (fun r => r.company = c))).map (fun r => r.date.y))).drop 1).filterMap
        (growthPoint (sortByDate (filtered.filter (fun r => r.company = c))) c) := he
    obtain ⟨y', _, hfy'⟩ := List.mem_filterMap.mp he'
    unfold growthPoint at hfy'
    by_cases hcond : 0 < revenueSumInYear (sortByDate (filtered.filter
        (fun r => r.company = c))) (y' - 1)
    · rw [if_pos hcond] at hfy'
      have he2 := Option.some.inj hfy'
      have hyy : y' = y := by rw [← hey, ← he2]
      rw [hyy, hsum] at hcond
      exact absurd hcond (not_lt.mpr hzero)
    · rw [if_neg hcond] at hfy'
      exact Option.noConfusion hfy'

/-- C8 counterexample: company `A` has the consecutive years 2020 and
2021 in its filtered data with a nonzero (negative) prior-year revenue
total, yet no growth point at all is produced — the code's guard is
`previous_year > 0`, so a negative prior-year total is omitted as
well, while the claim demands a data point for every consecutive year
pair whose prior total is nonzero. -/
theorem C8_growth_counterexample :
    growth_data ["A"] [recNeg20, recPos21] = [] ∧
    (∃ r ∈ [recNeg20, recPos21], r.company = "A" ∧ r.date.y = 2020) ∧
    (∃ r ∈ [recNeg20, recPos21], r.company = "A" ∧ r.date.y = 2021) ∧
    revenueSumInYear ([recNeg20, recPos21].filter (fun r => r.company = "A")) 2020
      ≠ 0 := by
  refine ⟨?_, by decide, by decide, ?_⟩
  · norm_num [growth_data, growthForCompany, growthPoint, sortByDate,
      revenueSumInYear, pdDedupList, dedupAux, List.insertionSort,
      List.orderedInsert, recNeg20, recPos21, dateLe, List.filter, List.filterMap]
  · norm_num [revenueSumInYear, recNeg20, recPos21, List.filter]

theorem C8_growth_witness :
    (⟨"A", 2021,
      (revenueSumInYear ([recA20, recA21].filter (fun r => r.company = "A")) 2021
        - revenueSumInYear ([recA20, recA21].filter (fun r => r.company = "A")) 2020)
      / revenueSumInYear ([recA20, recA21].filter (fun r => r.company = "A")) 2020
      * 100⟩ : GrowthEntry) ∈ growth_data ["A"] [recA20, recA21] :=
  (C8_growth ["A"] [recA20, recA21] "A" 2021 (by decide) (by norm_num)
    ⟨recA21, by decide, rfl, rfl⟩ ⟨recA20, by decide, rfl, rfl⟩).1
    (by norm_num [revenueSumInYear, recA20, recA21, List.filter])

end FinDash
